import Mathlib

/-!
# Verification of the package-analysis core of PYLibrariesList

Shallow embedding of the dependency-graph and package-health analysis logic of
`PYLibrariesList_V1.py`: the reverse-dependency indexer, the orphan classifier,
the damage classifier, the version comparator, the outdated-name matcher and
the generation-stamped scan coordinator callbacks.  Python strings are embedded
as `String` / `List Char`; the Python string primitives used by the source
(`str.split`, `str.strip`, `str.replace`, `re.split` at a character class,
`re.sub` of a character-class run) are reimplemented below with structural
recursion so that every definition evaluates by `decide`.
-/

namespace PyLibs

/-- Whitespace as recognised by Python `str.strip()` (ASCII subset; the
source only ever strips ASCII text). -/
def pyWhitespace (c : Char) : Bool :=
  c = ' ' || c = '\t' || c = '\n' || c = '\x0d' || c = '\x0b' || c = '\x0c'

/-- Remove leading whitespace, as Python `str.lstrip()`. -/
def lstripChars (l : List Char) : List Char := l.dropWhile pyWhitespace

/-- Remove trailing whitespace, as Python `str.rstrip()`. -/
def rstripChars (l : List Char) : List Char := (l.reverse.dropWhile pyWhitespace).reverse

/-- Python `str.strip()` on a character list. -/
def stripChars (l : List Char) : List Char := lstripChars (rstripChars l)

/-- Python `str.strip()`. -/
def pyStrip (s : String) : String := ⟨stripChars s.data⟩

/-- Split a character list at the first occurrence of a (non-empty) separator:
returns the part before it and the part after it, or `none` when the separator
does not occur.  This is the engine behind Python `str.split(sep)` and
`str.split(sep, 1)`. -/
def splitFirst (sep : List Char) : List Char → Option (List Char × List Char)
  | [] => none
  | c :: rest =>
    if sep.isPrefixOf (c :: rest) then
      some ([], (c :: rest).drop sep.length)
    else
      match splitFirst sep rest with
      | none => none
      | some (pre, post) => some (c :: pre, post)

/-- Python `s.split(sep)[0]` for a non-empty separator: the prefix of `s`
before the first occurrence of `sep`, or all of `s` when `sep` does not
occur. -/
def pySplitHead (sep s : String) : String :=
  match splitFirst sep.data s.data with
  | some (pre, _) => ⟨pre⟩
  | none => s

/-- Python `s.split(sep, 1)` for a non-empty separator, as the optional pair
of the two fragments (`none` when the separator does not occur, in which case
Python returns the one-element list `[s]`). -/
def pySplit1 (sep s : String) : Option (String × String) :=
  match splitFirst sep.data s.data with
  | some (pre, post) => some (⟨pre⟩, ⟨post⟩)
  | none => none

/-- Split a character list at every occurrence of a single character, as
Python `str.split(c)` for a one-character separator. -/
def splitOnChar (sep : Char) : List Char → List (List Char)
  | [] => [[]]
  | c :: rest =>
    if c = sep then [] :: splitOnChar sep rest
    else
      match splitOnChar sep rest with
      | [] => [[c]]
      | group :: groups => (c :: group) :: groups

/-- Python `str.replace(pat, rep)` (leftmost, non-overlapping), written with a
fuel argument equal to the length of the processed list so that the recursion
is structural; the fuel never runs out because every step consumes at least
one character. -/
def replaceAux (pat rep : List Char) : Nat → List Char → List Char
  | 0, l => l
  | _ + 1, [] => []
  | fuel + 1, c :: rest =>
    if pat ≠ [] ∧ pat.isPrefixOf (c :: rest) then
      rep ++ replaceAux pat rep fuel ((c :: rest).drop pat.length)
    else
      c :: replaceAux pat rep fuel rest

/-- Python `str.replace(pat, rep)`. -/
def pyReplace (pat rep s : String) : String :=
  ⟨replaceAux pat.data rep.data s.data.length s.data⟩

/-- Python `os.path.basename` (POSIX form): the part after the last `/`. -/
def pyBasename (path : String) : String :=
  ⟨(splitOnChar '/' path.data).getLastD []⟩

/-- Python `s.rsplit(c, 1)[0]`: everything before the last occurrence of `c`,
or all of `s` when `c` does not occur. -/
def pyRsplitHead (sep : Char) (s : String) : String :=
  match splitFirst [sep] s.data.reverse with
  | some (_, post) => ⟨post.reverse⟩
  | none => s

/-- Python `str.lower()` (ASCII lowering; package names are ASCII). -/
def pyLower (s : String) : String := ⟨s.data.map Char.toLower⟩

/-- The last line of a string: Python `s.split('\n')[-1]`. -/
def lastLine (s : String) : String :=
  ⟨(splitOnChar '\x0a' s.data).getLastD []⟩

/-- Python `s.strip().splitlines()` restricted to `\n` separators, which is
what `pip check` output uses. -/
def stripSplitlines (s : String) : List String :=
  if pyStrip s = "" then [] else (splitOnChar '\x0a' (pyStrip s).data).map (⟨·⟩)

/-! ## Version comparator (`PackageUtils.get_version_sort_key`) -/

/-- The literal separator at line 465 of the source,
`version_string.split("â†’")` — the same three characters the source itself
inserts between current and latest version when building the display string
(line 1758), so the split token and the display token agree. -/
def arrowSep : String := ⟨[Char.ofNat 0xE2, Char.ofNat 0x2020, Char.ofNat 0x2019]⟩

/-- The version display string built at line 1758 of the source:
`f"{pkg['version']} â†’ {latest_ver}"`. -/
def versionDisplay (version latest : String) : String :=
  version ++ " " ++ arrowSep ++ " " ++ latest

/-- The numeric value of a digit run. -/
def digitsToNat (l : List Char) : Nat :=
  l.foldl (fun acc c => acc * 10 + (c.toNat - '0'.toNat)) 0

/-- The `[-_\.]` separator class of the PEP 440 version grammar. -/
def isSepChar (c : Char) : Bool := c = '-' || c = '_' || c = '.'

/-- The `[a-z0-9]` class of the PEP 440 local-segment grammar (the input is
lowercased first, mirroring `re.IGNORECASE`). -/
def isLocalAlnum (c : Char) : Bool := c.isDigit || ('a' ≤ c && c ≤ 'z')

/-- First word of `words` that is a prefix of `l`, returning the rest of `l`
after it.  The word lists below order longer words before their own
prefixes, which on this grammar is equivalent to the regex's
leftmost-alternative backtracking. -/
def matchWord (words : List (List Char)) (l : List Char) : Option (List Char) :=
  match words with
  | [] => none
  | w :: ws => if w.isPrefixOf l then some (l.drop w.length) else matchWord ws l

/-- The `pre_l` alternatives `alpha|a|b|c|rc|beta|pre|preview`. -/
def preWords : List (List Char) :=
  ["alpha".data, "beta".data, "preview".data, "pre".data, "rc".data,
    "a".data, "b".data, "c".data]

/-- The `post_l` alternatives `post|rev|r`. -/
def postWords : List (List Char) := ["post".data, "rev".data, "r".data]

/-- The `dev_l` alternative `dev`. -/
def devWords : List (List Char) := ["dev".data]

/-- One optional letter group of the PEP 440 grammar,
`([-_\.]? WORD [-_\.]? [0-9]*)?`: consume an optional separator, one of the
words, an optional separator and an optional digit run; leave the input
unchanged when no word matches. -/
def letterGroup (words : List (List Char)) (l : List Char) : List Char :=
  let afterWord :=
    match l with
    | c :: rest => if isSepChar c then matchWord words rest else matchWord words l
    | [] => none
  match afterWord with
  | none => l
  | some l1 =>
    let l2 :=
      match l1 with
      | c :: rest => if isSepChar c then rest else l1
      | [] => l1
    l2.dropWhile Char.isDigit

/-- The trailing `(\.[0-9]+)*` groups of the release segment: consume
`.digits` pairs while the character after the dot is a digit.  The fuel is
the input length; every step consumes at least two characters. -/
def releaseGroupsAux : Nat → List Char → (List Nat × List Char)
  | 0, l => ([], l)
  | fuel + 1, l =>
    match l with
    | '.' :: rest =>
      let (ds, l2) := rest.span Char.isDigit
      if ds = [] then ([], l)
      else
        let (gs, l3) := releaseGroupsAux fuel l2
        (digitsToNat ds :: gs, l3)
    | _ => ([], l)

/-- The trailing `([-_\.][a-z0-9]+)*` groups of the local segment, with the
same fuel discipline. -/
def localGroupsAux : Nat → List Char → List Char
  | 0, l => l
  | fuel + 1, l =>
    match l with
    | c :: rest =>
      if isSepChar c then
        let (run, l2) := rest.span isLocalAlnum
        if run = [] then l else localGroupsAux fuel l2
      else l
    | [] => []

/-- Modelled from the external `packaging.version.parse` (the program
imports it at line 382 and catches `InvalidVersion`): validity follows the
full PEP 440 grammar — surrounding whitespace, case-insensitivity via
lowercasing, an optional `v`, an optional epoch `N!`, a dotted release
segment, an optional pre-release (`alpha|a|b|c|rc|beta|pre|preview`), an
optional post release (`-N` or `post|rev|r`), an optional dev release and an
optional `+local` segment.  The structured form retained is the release
components: every structured comparison in this development is between plain
releases, and all unparseable strings map to the single key of `"0.0.0"`, so
the discarded pre/post/dev/epoch/local components only ever decide validity
here, not order. -/
def parseVersion (s : String) : Option (List Nat) :=
  let l0 := (stripChars s.data).map Char.toLower
  let l1 :=
    match l0 with
    | 'v' :: rest => rest
    | _ => l0
  let (epochDigits, afterEpochDigits) := l1.span Char.isDigit
  let l2 :=
    match afterEpochDigits with
    | '!' :: rest => if epochDigits ≠ [] then rest else l1
    | _ => l1
  let (releaseDigits, afterRelease) := l2.span Char.isDigit
  if releaseDigits = [] then none
  else
    let (gs, l3) := releaseGroupsAux afterRelease.length afterRelease
    let release := digitsToNat releaseDigits :: gs
    let l4 := letterGroup preWords l3
    let l5 :=
      match l4 with
      | '-' :: c :: rest =>
        if c.isDigit then (c :: rest).dropWhile Char.isDigit
        else letterGroup postWords l4
      | _ => letterGroup postWords l4
    let l6 := letterGroup devWords l5
    let l7 :=
      match l6 with
      | '+' :: rest =>
        let (run, lr) := rest.span isLocalAlnum
        if run = [] then none else some (localGroupsAux lr.length lr)
      | _ => some l6
    match l7 with
    | none => none
    | some lend => if lend = [] then some release else none

/-- A sort key produced by `get_version_sort_key`: a parsed version when the
`packaging` library is available, the raw base string otherwise. -/
inductive VersionKey where
  | ver (release : List Nat)
  | str (s : String)
deriving DecidableEq

/-- Is the zero release `[]` strictly below `bs` (after zero padding)?
Helper of `releaseLt`. -/
def releaseNilLt : List Nat → Bool
  | [] => false
  | b :: bs => decide (0 < b) || releaseNilLt bs

/-- PEP 440 ordering on release segments: componentwise, with the shorter
tuple padded with zeros. -/
def releaseLt : List Nat → List Nat → Bool
  | [], bs => releaseNilLt bs
  | a :: as, [] => decide (a = 0) && releaseLt as []
  | a :: as, b :: bs => decide (a < b) || (decide (a = b) && releaseLt as bs)

/-- Strict order on sort keys.  Keys of the two constructors never meet in
one run of the program, because `PACKAGING_AVAILABLE` is a module-level
constant; mixed comparisons are therefore given an arbitrary value. -/
def versionKeyLt : VersionKey → VersionKey → Bool
  | .ver a, .ver b => releaseLt a b
  | .str a, .str b => decide (a < b)
  | _, _ => false

/-- `PackageUtils.get_version_sort_key` (lines 462–472): take the part of the
string before the first arrow token, strip it, and parse it when `packaging`
is available, falling back to `parse_version("0.0.0")` on `InvalidVersion`;
without `packaging`, return the stripped base string itself. -/
def get_version_sort_key (packagingAvailable : Bool) (version_string : String) :
    VersionKey :=
  let base_version_str := pyStrip (pySplitHead arrowSep version_string)
  if packagingAvailable then
    match parseVersion base_version_str with
    | some v => .ver v
    | none =>
      match parseVersion "0.0.0" with
      | some v0 => .ver v0
      | none => .ver []
  else
    .str base_version_str

/-! ## Data model -/

/-- One installed-package descriptor, the fields of the dict produced by
`PackageUtils.get_package_info_modern` that the analysis core reads. -/
structure Pkg where
  name : String
  version : String
  size : Nat
  requires : List String
deriving DecidableEq

/-- One entry of the outdated map built from `pip list --outdated` JSON
(`_check_for_outdated_packages_task`, line 1649 keys the items by name). -/
structure OutdatedInfo where
  name : String
  latest_version : String
deriving DecidableEq

/-! ## Reverse-dependency indexer (`_load_packages_task`, lines 1627–1634) -/

/-- The delimiter class of `re.split(r'[<>=!~ (]', req_str)` at line 1631. -/
def isReqDelim (c : Char) : Bool :=
  c = '<' || c = '>' || c = '=' || c = '!' || c = '~' || c = ' ' || c = '('

/-- `re.split(r'[<>=!~ (]', req_str)[0].strip()`: the prefix of the raw
requirement string before the first delimiter character, stripped. -/
def req_name (req_str : String) : String :=
  pyStrip ⟨req_str.data.takeWhile (fun c => !isReqDelim c)⟩

/-- `defaultdict(list)` append: add `dep` at the end of the entry for `key`,
creating the entry (at the end, in dict insertion order) when absent. -/
def rdInsert : List (String × List String) → String → String → List (String × List String)
  | [], key, dep => [(key, [dep])]
  | (k, v) :: rest, key, dep =>
    if k = key then (k, v ++ [dep]) :: rest else (k, v) :: rdInsert rest key dep

/-- Dictionary lookup returning `[]` for an absent key (a `defaultdict(list)`
read). -/
def rdLookup : List (String × List String) → String → List String
  | [], _ => []
  | (k, v) :: rest, key => if k = key then v else rdLookup rest key

/-- The body of the inner loop at lines 1630–1633: record `pkg_name` as a
depender of the bare requirement name, skipping empty names and
self-references. -/
def add_requirement (pkg_name : String) (m : List (String × List String))
    (req_str : String) : List (String × List String) :=
  let n := req_name req_str
  if n ≠ "" ∧ n ≠ pkg_name then rdInsert m n pkg_name else m

/-- Process all declared requirement strings of one package. -/
def add_package_deps (m : List (String × List String)) (pkg : Pkg) :
    List (String × List String) :=
  pkg.requires.foldl (add_requirement pkg.name) m

/-- The reverse-dependency index built at lines 1627–1634. -/
def reverse_deps (packages : List Pkg) : List (String × List String) :=
  packages.foldl add_package_deps []

/-! ## Orphan classifier (`find_orphaned_packages`, lines 2278–2283) -/

/-- The fixed essential allowlist at line 2280. -/
def essential_packages : List String := ["pip", "setuptools", "wheel"]

/-- `all_installed_names - dependency_names - essential_packages` at line
2282, as the list of installed names surviving the two set differences
(membership is what the claims are about; the Python value is a set). -/
def orphan_names (all_packages : List Pkg) (rd : List (String × List String)) :
    List String :=
  (all_packages.map Pkg.name).filter
    (fun n => !(rd.any (fun kv => kv.1 == n)) && !(essential_packages.contains n))

/-! ## Outdated-name matching (`_is_package_outdated`, lines 1726–1742) -/

/-- `re.sub(r"[-.]+", "_", s)`: every maximal run of `-`/`.` characters is
replaced by a single `_`.  As in `replaceAux`, the fuel argument makes the
recursion structural and never runs out, because every step consumes at
least one character. -/
def collapseRunsAux : Nat → List Char → List Char
  | 0, l => l
  | _ + 1, [] => []
  | fuel + 1, c :: rest =>
    if c = '-' ∨ c = '.' then
      '_' :: collapseRunsAux fuel (rest.dropWhile (fun d => d = '-' || d = '.'))
    else
      c :: collapseRunsAux fuel rest

def collapseRuns (l : List Char) : List Char := collapseRunsAux l.length l

/-- `re.sub(r"[-.]+", "_", name).lower()` as used at lines 1735 and 1738. -/
def normalize_name (s : String) : String := pyLower ⟨collapseRuns s.data⟩

/-- `_is_package_outdated`: exact dictionary hit first, then the first entry
(in dict order) whose normalized key equals the normalized package name,
otherwise `None`. -/
def is_package_outdated (outdated_packages : List (String × OutdatedInfo))
    (pkg_name : String) : Option OutdatedInfo :=
  match outdated_packages.find? (fun kv => kv.1 == pkg_name) with
  | some kv => some kv.2
  | none =>
    let normalized_name := normalize_name pkg_name
    match outdated_packages.find?
        (fun kv => normalize_name kv.1 == normalized_name) with
    | some kv => some kv.2
    | none => none

/-! ## Scan coordinator (`_load_packages_task`, `_on_installed_loaded`,
`_on_outdated_checked`, and the generation counter `current_scan_id`) -/

/-- The authoritative state owned by the coordinating thread: the fields of
the application object that the completion callbacks read and write. -/
structure CoordState where
  all_packages : List Pkg
  reverse_deps : List (String × List String)
  outdated_packages : List (String × OutdatedInfo)
  damaged_packages_cache : List String
  current_scan_id : Nat
deriving DecidableEq

/-- One `.dist-info` directory encountered by the scan loop at lines
1611–1624: either its metadata parsed into a descriptor (whose name the loop
still compares against `'N/A'`), or processing it raised. -/
inductive DistScan where
  | parsed (path : String) (info : Pkg)
  | failed (path : String)
deriving DecidableEq

/-- The loop at lines 1611–1624: well-formed descriptors go to `packages`,
everything else contributes its path to `damaged_packages`. -/
def scanDists : List DistScan → List Pkg × List String
  | [] => ([], [])
  | .parsed path info :: rest =>
    let (ps, ds) := scanDists rest
    if info.name ≠ "N/A" then (info :: ps, ds) else (ps, path :: ds)
  | .failed path :: rest =>
    let (ps, ds) := scanDists rest
    (ps, path :: ds)

/-- The triple returned by `_load_packages_task`. -/
structure LoadResult where
  packages : List Pkg
  reverse_deps : List (String × List String)
  damaged : List String
deriving DecidableEq

/-- `_load_packages_task` (lines 1583–1635), with the environment query
(locating site-packages and walking them) as an explicit `Except` input: on
an environment error the task posts one `messagebox.showerror` payload and
returns `[], {}, []`; otherwise it builds the package list, the
reverse-dependency index and the damaged-path list. -/
def load_packages_task (env : Except String (List DistScan))
    (current_interpreter : String) : LoadResult × Option String :=
  match env with
  | .error e =>
    (⟨[], [], []⟩,
      some ("Failed to locate site-packages for:\n" ++ current_interpreter ++
        "\n\nError: " ++ e))
  | .ok dists =>
    let (packages, damaged) := scanDists dists
    (⟨packages, reverse_deps packages, damaged⟩, none)

/-- Stable insertion into a list sorted by lowercased name (the Python
`sorted(..., key=lambda p: p['name'].lower())` at line 1661). -/
def insertByLowerName (p : Pkg) : List Pkg → List Pkg
  | [] => [p]
  | q :: rest =>
    if pyLower p.name ≤ pyLower q.name then p :: q :: rest
    else q :: insertByLowerName p rest

/-- `sorted(packages, key=lambda p: p['name'].lower())`. -/
def sortedByLowerName (ps : List Pkg) : List Pkg :=
  ps.foldr insertByLowerName []

/-- `_on_installed_loaded` (lines 1655–1672) restricted to the authoritative
state: a stale generation stamp returns immediately; a current one replaces
`all_packages`/`reverse_deps` when the scan produced any package, and always
replaces `damaged_packages_cache`. -/
def on_installed_loaded (st : CoordState) (result : LoadResult)
    (scan_id : Nat) : CoordState :=
  if scan_id ≠ st.current_scan_id then st
  else
    let st1 :=
      if result.packages ≠ [] then
        { st with
          all_packages := sortedByLowerName result.packages
          reverse_deps := result.reverse_deps }
      else st
    { st1 with damaged_packages_cache := result.damaged }

/-- `_on_outdated_checked` (lines 1693–1708) restricted to the authoritative
state: a stale stamp returns immediately, a current one replaces the
outdated map. -/
def on_outdated_checked (st : CoordState)
    (outdated_map : List (String × OutdatedInfo)) (scan_id : Nat) : CoordState :=
  if scan_id ≠ st.current_scan_id then st
  else { st with outdated_packages := outdated_map }

/-- Requesting a new scan (lines 886–887, 895–896) or switching environments
(line 1523) increments the generation counter. -/
def request_scan (st : CoordState) : CoordState :=
  { st with current_scan_id := st.current_scan_id + 1 }

/-! ## Damage classifier (`_scan_for_damaged_packages_task`, lines 2101–2214)

External effects (the `pip check` subprocess, `importlib.metadata` lookups,
the import subprocess, and the filesystem) enter as explicit per-package and
per-file outcome data; every `except` block of the source becomes a `match`
on the corresponding `Except`/`Option` outcome. -/

instance {ε α : Type} [DecidableEq ε] [DecidableEq α] : DecidableEq (Except ε α) := fun x y =>
  match x, y with
  | .error a, .error b =>
    if h : a = b then .isTrue (congrArg Except.error h)
    else .isFalse (fun hc => h (Except.error.inj hc))
  | .error _, .ok _ => .isFalse (fun hc => Except.noConfusion hc)
  | .ok _, .error _ => .isFalse (fun hc => Except.noConfusion hc)
  | .ok a, .ok b =>
    if h : a = b then .isTrue (congrArg Except.ok h)
    else .isFalse (fun hc => h (Except.ok.inj hc))

/-- The four independently toggleable checks (the `options` dict). -/
structure ScanOptions where
  check_deps : Bool
  check_import : Bool
  check_hashes : Bool
  check_metadata_files : Bool
deriving DecidableEq

/-- One problem dict as appended by the scan task (keys `id`, `name`,
`problem`, `details`, `type`). -/
structure Problem where
  id : String
  name : String
  problem : String
  details : String
  type : String
deriving DecidableEq

/-- One file reported by `dist.files` together with the outcomes of the
filesystem operations the per-file block performs on it: `locate_raises` is
an exception raised before the metadata-file check (for example by
`file_info.locate()`), `read_raises` one raised while testing/reading the
file for its hash. -/
structure FileEntry where
  fname : String
  locate_raises : Option String
  hash : Option String
  is_file : Bool
  read_raises : Option String
  actual_hash : String
deriving DecidableEq

/-- One package of `self.all_packages` together with the outcomes of the
external operations the per-package loop performs for it. `missing_meta`
lists which of the expected metadata files do not exist on disk. -/
structure PkgCheck where
  pkg : Pkg
  dist_lookup : Except String Unit
  run_import : Except String (Int × String)
  files : Except String (List FileEntry)
  missing_meta : List String
deriving DecidableEq

/-- The fixed tuple `("METADATA", "RECORD", "WHEEL")` at line 2193. -/
def metaFileNames : List String := ["METADATA", "RECORD", "WHEEL"]

/-- Unparseable-metadata problems carried over from the damaged-path cache
(lines 2107–2120): `basename.replace('.dist-info', '').rsplit('-', 1)[0]`
recovers a package name from the directory path. -/
def cache_problems (damaged_packages_cache : List String) : List Problem :=
  damaged_packages_cache.map (fun path =>
    let basename := pyReplace ".dist-info" "" (pyBasename path)
    let package_name := pyRsplitHead '-' basename
    { id := path
      name := package_name
      problem := "Unparseable metadata"
      details := "Could not parse metadata from: " ++ path
      type := "reinstallable" })

/-- Parsing of one `pip check` output line (lines 2132–2137):
`line.split(" has requirement ", 1)`, a problem only when the separator
occurs. -/
def parse_pip_check_line (line : String) : Option Problem :=
  match pySplit1 " has requirement " line with
  | none => none
  | some (package_part, req_part) =>
    let package_name_from_check : String :=
      ⟨package_part.data.takeWhile (fun c => c ≠ ' ')⟩
    some
      { id := "dep-" ++ package_name_from_check
        name := package_name_from_check
        problem := "Dependency conflict"
        details := req_part
        type := "reinstallable" }

/-- The dependency-conflict check (lines 2123–2139): a raised `pip check`
invocation is only printed, a completed one has its stdout parsed line by
line. -/
def dep_check_problems (options : ScanOptions)
    (pip_check : Except String String) : List Problem :=
  if options.check_deps then
    match pip_check with
    | .error _ => []
    | .ok output => (stripSplitlines output).filterMap parse_pip_check_line
  else []

/-- The per-file body at lines 2186–2208: an exception before the
metadata-file check yields exactly one "File check failed" problem; otherwise
the missing-metadata problems are appended, then the hash check runs (only
for files with a recorded hash that exist), with its own exception again
converted into a "File check failed" problem. -/
def check_file (options : ScanOptions) (pkg_name : String)
    (missing_meta : List String) (f : FileEntry) : List Problem :=
  match f.locate_raises with
  | some e =>
    [{ id := "filecheck-fail-" ++ pkg_name ++ "-" ++ f.fname
       name := pkg_name
       problem := "File check failed"
       details := "Error checking file " ++ f.fname ++ ": " ++ e
       type := "reinstallable" }]
  | none =>
    (if options.check_metadata_files then
      (metaFileNames.filter (fun n => missing_meta.contains n)).map (fun n =>
        { id := "missing-meta-" ++ pkg_name ++ "-" ++ n
          name := pkg_name
          problem := "Missing metadata file"
          details := "Metadata file not found: " ++ n
          type := "reinstallable" })
    else []) ++
    (if options.check_hashes then
      match f.hash with
      | some recorded =>
        match f.read_raises with
        | some e =>
          [{ id := "filecheck-fail-" ++ pkg_name ++ "-" ++ f.fname
             name := pkg_name
             problem := "File check failed"
             details := "Error checking file " ++ f.fname ++ ": " ++ e
             type := "reinstallable" }]
        | none =>
          if f.is_file then
            if recorded ≠ f.actual_hash then
              [{ id := "hash-" ++ pkg_name ++ "-" ++ f.fname
                 name := pkg_name
                 problem := "File hash mismatch"
                 details := "File: " ++ f.fname
                 type := "reinstallable" }]
            else []
          else []
      | none => []
    else [])

/-- The per-package body at lines 2153–2211: a failed distribution lookup
short-circuits into its single problem (`continue`); otherwise the optional
smoke test of the import runs (skipped for packages with no entry in the
package→module map, its own exception converted into a problem), then the
optional file checks (a raised `dist.files` converted into a "Corrupted
RECORD file" problem, an empty file list skipped via `continue`). -/
def check_package (options : ScanOptions)
    (dist_to_module_map : List (String × String)) (pc : PkgCheck) :
    List Problem :=
  let pkg_name := pc.pkg.name
  match pc.dist_lookup with
  | .error e =>
    [{ id := "dist-fail-" ++ pkg_name
       name := pkg_name
       problem := "Distribution lookup failed"
       details := e
       type := "reinstallable" }]
  | .ok _ =>
    (if options.check_import then
      match (dist_to_module_map.find? (fun kv => kv.1 == pkg_name)) with
      | none => []
      | some _ =>
        match pc.run_import with
        | .error e =>
          [{ id := "import-fail-" ++ pkg_name
             name := pkg_name
             problem := "Import check failed"
             details := e
             type := "reinstallable" }]
        | .ok (returncode, output) =>
          if returncode ≠ 0 then
            [{ id := "import-" ++ pkg_name
               name := pkg_name
               problem := "Import failed"
               details := lastLine (pyStrip output)
               type := "reinstallable" }]
          else []
    else []) ++
    (if options.check_hashes || options.check_metadata_files then
      match pc.files with
      | .error e =>
        [{ id := "record-read-fail-" ++ pkg_name
           name := pkg_name
           problem := "Corrupted RECORD file"
           details := "Could not parse file list. Error: " ++ e
           type := "reinstallable" }]
      | .ok dist_files =>
        if dist_files = [] then []
        else dist_files.flatMap (check_file options pkg_name pc.missing_meta)
    else [])

/-- The raw problem list accumulated by the task before deduplication:
cache carry-over, then the dependency check, then the per-package loop. -/
def collect_problems (options : ScanOptions)
    (damaged_packages_cache : List String) (pip_check : Except String String)
    (dist_to_module_map : List (String × String)) (all_packages : List PkgCheck) :
    List Problem :=
  cache_problems damaged_packages_cache ++
    dep_check_problems options pip_check ++
    all_packages.flatMap (check_package options dist_to_module_map)

/-- One step of the Python dict comprehension `{p['id']: p for p in problems}`:
a later record with a known id replaces the stored value in place, a new id
is appended. -/
def dedupStep (acc : List Problem) (p : Problem) : List Problem :=
  if acc.any (fun q => q.id == p.id) then
    acc.map (fun q => if q.id == p.id then p else q)
  else acc ++ [p]

/-- `list({p['id']: p for p in problems}.values())` (lines 2213–2214). -/
def dedupById (ps : List Problem) : List Problem :=
  ps.foldl dedupStep []

/-- `_scan_for_damaged_packages_task`: the deduplicated problem list. -/
def scan_for_damaged_packages_task (options : ScanOptions)
    (damaged_packages_cache : List String) (pip_check : Except String String)
    (dist_to_module_map : List (String × String)) (all_packages : List PkgCheck) :
    List Problem :=
  dedupById
    (collect_problems options damaged_packages_cache pip_check
      dist_to_module_map all_packages)

/-- `_on_damaged_selection_changed` (lines 2228–2245): the reinstall button
is enabled exactly when the selection is non-empty and every selected row
carries the `reinstallable` tag (each row's tags are the singleton
`(problem['type'],)` set at line 2222). -/
def reinstall_button_enabled (selection : List Problem) : Bool :=
  if selection = [] then false
  else selection.all (fun p => p.type == "reinstallable")

/-! ## Sample inputs used by concrete witnesses -/

/-- Hash and metadata checks enabled, the other two disabled. -/
def sample_options : ScanOptions := ⟨false, false, true, true⟩

/-- A package whose `importlib.metadata.distribution` lookup raises. -/
def sample_bad : PkgCheck :=
  ⟨⟨"badpkg", "1", 0, []⟩, .error "metadata boom", .ok (0, ""), .ok [], []⟩

/-- A file whose per-file processing raises before the metadata check. -/
def sample_file_raises : FileEntry := ⟨"a.py", some "io error", none, true, none, "h"⟩

/-- A file whose recorded hash disagrees with its recomputed hash. -/
def sample_file_mismatch : FileEntry := ⟨"b.py", none, some "h1", true, none, "h2"⟩

/-- A healthy package with one raising file and one hash-mismatched file. -/
def sample_good : PkgCheck :=
  ⟨⟨"good", "1", 0, []⟩, .ok (), .ok (0, ""),
    .ok [sample_file_raises, sample_file_mismatch], []⟩

/-! ## Helper lemmas: deduplication by problem id -/

theorem ids_dedupStep (acc : List Problem) (p : Problem) :
    (dedupStep acc p).map Problem.id =
      if acc.any (fun q => q.id == p.id) then acc.map Problem.id
      else acc.map Problem.id ++ [p.id] := by
  unfold dedupStep
  split
  · simp only [if_pos, List.map_map]
    refine List.map_congr_left (fun q _ => ?_)
    by_cases h : q.id = p.id <;> simp [h]
  · simp

theorem mem_dedupStep (acc : List Problem) (p q : Problem)
    (h : q ∈ dedupStep acc p) : q ∈ acc ∨ q = p := by
  unfold dedupStep at h
  split at h
  · rcases List.mem_map.mp h with ⟨r, hr, hrq⟩
    by_cases hid : r.id = p.id
    · rw [if_pos (by simpa using hid)] at hrq
      exact Or.inr hrq.symm
    · rw [if_neg (by simpa using hid)] at hrq
      exact Or.inl (hrq ▸ hr)
  · rcases List.mem_append.mp h with h' | h'
    · exact Or.inl h'
    · exact Or.inr (by simpa using h')

theorem foldl_dedupStep_nodup (l : List Problem) :
    ∀ acc : List Problem, ((acc.map Problem.id).Nodup) →
      (((l.foldl dedupStep acc).map Problem.id).Nodup) := by
  induction l with
  | nil => intro acc h; simpa using h
  | cons p rest ih =>
    intro acc h
    simp only [List.foldl_cons]
    refine ih _ ?_
    rw [ids_dedupStep]
    split
    · exact h
    · rename_i hany
      have hnot : ∀ q ∈ acc, q.id ≠ p.id := by
        intro q hq hc
        exact hany (List.any_eq_true.mpr ⟨q, hq, by simpa using hc⟩)
      rw [List.nodup_append]
      refine ⟨h, List.nodup_singleton _, ?_⟩
      intro x hx hx'
      simp only [List.mem_singleton] at hx'
      rcases List.mem_map.mp hx with ⟨q, hq, hqid⟩
      exact hnot q hq (hqid.trans hx')

theorem mem_foldl_dedupStep (l : List Problem) :
    ∀ (acc : List Problem) (p : Problem),
      p ∈ l.foldl dedupStep acc → p ∈ acc ∨ p ∈ l := by
  induction l with
  | nil => intro acc p h; exact Or.inl (by simpa using h)
  | cons q rest ih =>
    intro acc p h
    simp only [List.foldl_cons] at h
    rcases ih _ _ h with h' | h'
    · rcases mem_dedupStep _ _ _ h' with h'' | h''
      · exact Or.inl h''
      · exact Or.inr (h'' ▸ List.mem_cons_self q rest)
    · exact Or.inr (List.mem_cons_of_mem _ h')

theorem mem_ids_foldl_dedupStep (l : List Problem) :
    ∀ (acc : List Problem) (x : String),
      (x ∈ (l.foldl dedupStep acc).map Problem.id ↔
        x ∈ acc.map Problem.id ∨ x ∈ l.map Problem.id) := by
  induction l with
  | nil => intro acc x; simp
  | cons p rest ih =>
    intro acc x
    simp only [List.foldl_cons]
    rw [ih]
    rw [ids_dedupStep]
    split
    · rename_i hany
      simp only [List.any_eq_true, beq_iff_eq] at hany
      rcases hany with ⟨q, hq, hqid⟩
      constructor
      · rintro (h | h)
        · exact Or.inl h
        · exact Or.inr (List.mem_cons_of_mem _ h)
      · rintro (h | h)
        · exact Or.inl h
        · rcases List.mem_cons.mp h with rfl | h'
          · exact Or.inl (hqid ▸ List.mem_map_of_mem Problem.id hq)
          · exact Or.inr h'
    · simp only [List.mem_append, List.mem_singleton, List.map_cons,
        List.mem_cons]
      tauto

theorem dedupById_nodup (l : List Problem) :
    ((dedupById l).map Problem.id).Nodup :=
  foldl_dedupStep_nodup l [] (by simp)

theorem mem_dedupById (l : List Problem) (p : Problem)
    (h : p ∈ dedupById l) : p ∈ l := by
  rcases mem_foldl_dedupStep l [] p h with h' | h'
  · simp at h'
  · exact h'

theorem mem_ids_dedupById (l : List Problem) (x : String) :
    x ∈ (dedupById l).map Problem.id ↔ x ∈ l.map Problem.id := by
  rw [dedupById, mem_ids_foldl_dedupStep]
  simp

theorem dedupById_of_nodup (l : List Problem)
    (h : (l.map Problem.id).Nodup) : dedupById l = l := by
  induction l using List.reverseRecOn with
  | nil => rfl
  | append_singleton front p ih =>
    simp only [List.map_append, List.map_cons, List.map_nil] at h
    rw [List.nodup_append] at h
    obtain ⟨hfront, -, hdisj⟩ := h
    rw [dedupById, List.foldl_append, List.foldl_cons, List.foldl_nil]
    rw [← dedupById, ih hfront]
    unfold dedupStep
    rw [if_neg]
    intro hc
    rcases List.any_eq_true.mp hc with ⟨q, hq, hqid⟩
    exact hdisj (List.mem_map_of_mem Problem.id hq) (by simpa using hqid)

theorem dedupById_idem (l : List Problem) :
    dedupById (dedupById l) = dedupById l :=
  dedupById_of_nodup _ (dedupById_nodup l)

/-! ## Helper lemmas: the reverse-dependency index -/

theorem rdLookup_rdInsert (m : List (String × List String)) (key dep k : String) :
    rdLookup (rdInsert m key dep) k =
      if k = key then rdLookup m key ++ [dep] else rdLookup m k := by
  induction m with
  | nil =>
    by_cases h : k = key
    · subst h; simp [rdInsert, rdLookup]
    · simp [rdInsert, rdLookup, h, Ne.symm h]
  | cons kv rest ih =>
    obtain ⟨k0, v0⟩ := kv
    by_cases h0 : k0 = key
    · subst h0
      by_cases h : k = k0
      · subst h; simp [rdInsert, rdLookup]
      · simp [rdInsert, rdLookup, h, Ne.symm h]
    · by_cases h : k = k0
      · subst h
        simp [rdInsert, rdLookup, h0]
      · simp [rdInsert, rdLookup, h0, h, Ne.symm h, ih]

theorem mem_rdLookup_add_requirement (nm : String)
    (m : List (String × List String)) (r k x : String)
    (h : x ∈ rdLookup m k) : x ∈ rdLookup (add_requirement nm m r) k := by
  simp only [add_requirement]
  split
  · rw [rdLookup_rdInsert]
    split
    · rename_i hk
      subst hk
      exact List.mem_append_left _ h
    · exact h
  · exact h

theorem mem_rdLookup_foldl_add_requirement (nm : String) (reqs : List String) :
    ∀ (m : List (String × List String)) (k x : String),
      x ∈ rdLookup m k → x ∈ rdLookup (reqs.foldl (add_requirement nm) m) k := by
  induction reqs with
  | nil => intro m k x h; simpa using h
  | cons r rest ih =>
    intro m k x h
    exact ih _ _ _ (mem_rdLookup_add_requirement nm m r k x h)

theorem mem_rdLookup_add_package_deps (m : List (String × List String))
    (pkg : Pkg) (k x : String) (h : x ∈ rdLookup m k) :
    x ∈ rdLookup (add_package_deps m pkg) k :=
  mem_rdLookup_foldl_add_requirement pkg.name pkg.requires m k x h

theorem mem_rdLookup_foldl_add_package_deps (ps : List Pkg) :
    ∀ (m : List (String × List String)) (k x : String),
      x ∈ rdLookup m k → x ∈ rdLookup (ps.foldl add_package_deps m) k := by
  induction ps with
  | nil => intro m k x h; simpa using h
  | cons p rest ih =>
    intro m k x h
    exact ih _ _ _ (mem_rdLookup_add_package_deps m p k x h)

theorem self_mem_foldl_add_requirement (nm : String) (reqs : List String)
    (s : String) (hs : s ∈ reqs) (h1 : req_name s ≠ "") (h2 : req_name s ≠ nm) :
    ∀ m : List (String × List String),
      nm ∈ rdLookup (reqs.foldl (add_requirement nm) m) (req_name s) := by
  induction reqs with
  | nil => cases hs
  | cons r rest ih =>
    intro m
    rcases List.mem_cons.mp hs with rfl | hs'
    · simp only [List.foldl_cons]
      refine mem_rdLookup_foldl_add_requirement nm rest _ _ _ ?_
      simp only [add_requirement]
      rw [if_pos ⟨h1, h2⟩, rdLookup_rdInsert, if_pos rfl]
      exact List.mem_append_right _ (by simp)
    · simp only [List.foldl_cons]
      exact ih hs' _

theorem self_mem_reverse_deps_aux (ps : List Pkg) (A : Pkg) (s : String)
    (hA : A ∈ ps) (hs : s ∈ A.requires) (h1 : req_name s ≠ "")
    (h2 : req_name s ≠ A.name) :
    ∀ m : List (String × List String),
      A.name ∈ rdLookup (ps.foldl add_package_deps m) (req_name s) := by
  induction ps with
  | nil => cases hA
  | cons p rest ih =>
    intro m
    rcases List.mem_cons.mp hA with rfl | hA'
    · simp only [List.foldl_cons]
      refine mem_rdLookup_foldl_add_package_deps rest _ _ _ ?_
      exact self_mem_foldl_add_requirement A.name A.requires s hs h1 h2 m
    · simp only [List.foldl_cons]
      exact ih hA' _

/-- Soundness invariant of the index: a recorded pair never has an empty key
and never records a package under its own name. -/
theorem rdLookup_add_requirement_sound (nm : String)
    (m : List (String × List String)) (r : String)
    (inv : ∀ k x, x ∈ rdLookup m k → k ≠ "" ∧ x ≠ k) :
    ∀ k x, x ∈ rdLookup (add_requirement nm m r) k → k ≠ "" ∧ x ≠ k := by
  intro k x h
  simp only [add_requirement] at h
  split at h
  · rename_i hcond
    rw [rdLookup_rdInsert] at h
    split at h
    · rename_i hk
      subst hk
      rcases List.mem_append.mp h with h' | h'
      · exact inv _ _ h'
      · simp only [List.mem_singleton] at h'
        subst h'
        exact ⟨hcond.1, fun hc => hcond.2 hc.symm⟩
    · exact inv _ _ h
  · exact inv _ _ h

theorem rdLookup_reverse_deps_sound (ps : List Pkg) :
    ∀ k x, x ∈ rdLookup (reverse_deps ps) k → k ≠ "" ∧ x ≠ k := by
  suffices hgen : ∀ (l : List Pkg) (m : List (String × List String)),
      (∀ k x, x ∈ rdLookup m k → k ≠ "" ∧ x ≠ k) →
      ∀ k x, x ∈ rdLookup (l.foldl add_package_deps m) k → k ≠ "" ∧ x ≠ k by
    exact hgen ps [] (by intro k x h; simp [rdLookup] at h)
  intro l
  induction l with
  | nil => intro m inv; simpa using inv
  | cons p rest ih =>
    intro m inv
    simp only [List.foldl_cons]
    refine ih _ ?_
    unfold add_package_deps
    suffices hreq : ∀ (reqs : List String) (m' : List (String × List String)),
        (∀ k x, x ∈ rdLookup m' k → k ≠ "" ∧ x ≠ k) →
        ∀ k x, x ∈ rdLookup (reqs.foldl (add_requirement p.name) m') k →
          k ≠ "" ∧ x ≠ k by
      exact hreq p.requires m inv
    intro reqs
    induction reqs with
    | nil => intro m' inv'; simpa using inv'
    | cons r rrest ihr =>
      intro m' inv'
      simp only [List.foldl_cons]
      exact ihr _ (rdLookup_add_requirement_sound p.name m' r inv')

/-- Every entry of the index carries a non-empty depender list. -/
theorem reverse_deps_values_nonempty (ps : List Pkg) :
    ∀ kv ∈ reverse_deps ps, kv.2 ≠ [] := by
  suffices hins : ∀ (m : List (String × List String)) (key dep : String),
      (∀ kv ∈ m, kv.2 ≠ []) → ∀ kv ∈ rdInsert m key dep, kv.2 ≠ [] by
    suffices hgen : ∀ (l : List Pkg) (m : List (String × List String)),
        (∀ kv ∈ m, kv.2 ≠ []) → ∀ kv ∈ l.foldl add_package_deps m, kv.2 ≠ [] by
      exact hgen ps [] (by simp)
    intro l
    induction l with
    | nil => intro m inv; simpa using inv
    | cons p rest ih =>
      intro m inv
      simp only [List.foldl_cons]
      refine ih _ ?_
      unfold add_package_deps
      suffices hreq : ∀ (reqs : List String) (m' : List (String × List String)),
          (∀ kv ∈ m', kv.2 ≠ []) →
          ∀ kv ∈ reqs.foldl (add_requirement p.name) m', kv.2 ≠ [] by
        exact hreq p.requires m inv
      intro reqs
      induction reqs with
      | nil => intro m' inv'; simpa using inv'
      | cons r rrest ihr =>
        intro m' inv'
        simp only [List.foldl_cons]
        refine ihr _ ?_
        simp only [add_requirement]
        split
        · exact hins m' _ _ inv'
        · exact inv'
  intro m key dep
  induction m with
  | nil => intro _ kv hkv; simp [rdInsert] at hkv; simp [hkv]
  | cons kv0 rest ih =>
    intro inv kv hkv
    obtain ⟨k0, v0⟩ := kv0
    unfold rdInsert at hkv
    split at hkv
    · rcases List.mem_cons.mp hkv with rfl | h'
      · simp
      · exact inv _ (List.mem_cons_of_mem _ h')
    · rcases List.mem_cons.mp hkv with rfl | h'
      · exact inv _ (List.mem_cons_self _ _)
      · exact ih (fun kv' hkv' => inv kv' (List.mem_cons_of_mem _ hkv')) _ h'

/-- For an association list with non-empty values, being a key is the same
as having a non-empty `rdLookup` image. -/
theorem mem_keys_iff_rdLookup_ne_nil (m : List (String × List String))
    (hval : ∀ kv ∈ m, kv.2 ≠ []) (k : String) :
    k ∈ m.map Prod.fst ↔ rdLookup m k ≠ [] := by
  induction m with
  | nil => simp [rdLookup]
  | cons kv rest ih =>
    obtain ⟨k0, v0⟩ := kv
    have hval0 : v0 ≠ [] := by
      simpa using hval (k0, v0) (List.mem_cons_self _ _)
    have hrest : ∀ kv ∈ rest, kv.2 ≠ [] :=
      fun kv' hkv' => hval kv' (List.mem_cons_of_mem _ hkv')
    by_cases h : k = k0
    · subst h
      simp only [List.map_cons, List.mem_cons, rdLookup, if_pos rfl]
      exact ⟨fun _ => hval0, fun _ => Or.inl trivial⟩
    · simp only [List.map_cons, List.mem_cons, rdLookup,
        if_neg (fun hc : k0 = k => h hc.symm)]
      rw [← ih hrest]
      constructor
      · rintro (hc | hmem)
        · exact absurd hc h
        · exact hmem
      · exact Or.inr

/-! ## Helper lemmas: fields of damage-scan problem records -/

theorem parse_pip_check_line_fields (line : String) (p : Problem)
    (h : parse_pip_check_line line = some p) :
    p.problem = "Dependency conflict" ∧ p.type = "reinstallable" := by
  unfold parse_pip_check_line at h
  split at h
  · cases h
  · cases h
    exact ⟨rfl, rfl⟩

theorem check_file_fields (o : ScanOptions) (nm : String) (mm : List String)
    (f : FileEntry) : ∀ p ∈ check_file o nm mm f,
      p.name = nm ∧ p.type = "reinstallable" := by
  intro p hp
  unfold check_file at hp
  split at hp
  · simp only [List.mem_singleton] at hp
    subst hp
    exact ⟨rfl, rfl⟩
  · rcases List.mem_append.mp hp with h | h
    · split at h
      · rcases List.mem_map.mp h with ⟨n, -, rfl⟩
        exact ⟨rfl, rfl⟩
      · cases h
    · split at h
      · split at h
        · split at h
          · simp only [List.mem_singleton] at h
            subst h
            exact ⟨rfl, rfl⟩
          · split at h
            · split at h
              · simp only [List.mem_singleton] at h
                subst h
                exact ⟨rfl, rfl⟩
              · cases h
            · cases h
        · cases h
      · cases h

theorem check_package_fields (o : ScanOptions)
    (dmap : List (String × String)) (pc : PkgCheck) :
    ∀ p ∈ check_package o dmap pc,
      p.name = pc.pkg.name ∧ p.type = "reinstallable" := by
  intro p hp
  unfold check_package at hp
  split at hp
  · simp only [List.mem_singleton] at hp
    subst hp
    exact ⟨rfl, rfl⟩
  · rcases List.mem_append.mp hp with h | h
    · split at h
      · split at h
        · cases h
        · split at h
          · simp only [List.mem_singleton] at h
            subst h
            exact ⟨rfl, rfl⟩
          · split at h
            · simp only [List.mem_singleton] at h
              subst h
              exact ⟨rfl, rfl⟩
            · cases h
      · cases h
    · split at h
      · split at h
        · simp only [List.mem_singleton] at h
          subst h
          exact ⟨rfl, rfl⟩
        · split at h
          · cases h
          · rcases List.mem_flatMap.mp h with ⟨f, -, hf⟩
            exact check_file_fields o pc.pkg.name pc.missing_meta f p hf
      · cases h

theorem mem_collect_of_mem_check_package (o : ScanOptions)
    (dc : List String) (pip : Except String String)
    (dmap : List (String × String)) (pkgs : List PkgCheck) (pc : PkgCheck)
    (hpc : pc ∈ pkgs) (p : Problem) (hp : p ∈ check_package o dmap pc) :
    p ∈ collect_problems o dc pip dmap pkgs := by
  unfold collect_problems
  exact List.mem_append_right _ (List.mem_flatMap.mpr ⟨pc, hpc, hp⟩)

theorem collect_problems_type (o : ScanOptions) (dc : List String)
    (pip : Except String String) (dmap : List (String × String))
    (pkgs : List PkgCheck) :
    ∀ p ∈ collect_problems o dc pip dmap pkgs, p.type = "reinstallable" := by
  intro p hp
  unfold collect_problems at hp
  rcases List.mem_append.mp hp with h | h
  · rcases List.mem_append.mp h with h' | h'
    · rcases List.mem_map.mp h' with ⟨path, -, rfl⟩
      rfl
    · unfold dep_check_problems at h'
      split at h'
      · split at h'
        · cases h'
        · rcases List.mem_filterMap.mp h' with ⟨line, -, hline⟩
          exact (parse_pip_check_line_fields line p hline).2
      · cases h'
  · rcases List.mem_flatMap.mp h with ⟨pc, -, hpc⟩
    exact (check_package_fields o dmap pc p hpc).2

/-! ## Helper lemmas: splitting at a marker substring -/

theorem splitFirst_eq_none (s0 : Char) (srest l : List Char)
    (h : s0 ∉ l) : splitFirst (s0 :: srest) l = none := by
  induction l with
  | nil => rfl
  | cons c rest ih =>
    have hc : s0 ≠ c := fun hc => h (hc ▸ List.mem_cons_self c rest)
    have hpre : ((s0 :: srest).isPrefixOf (c :: rest)) = false := by
      simp only [List.isPrefixOf, Bool.and_eq_false_iff, beq_eq_false_iff_ne]
      exact Or.inl hc
    unfold splitFirst
    rw [hpre]
    simp only [Bool.false_eq_true, if_false]
    rw [ih (fun hmem => h (List.mem_cons_of_mem c hmem))]

theorem splitFirst_marker (s0 : Char) (srest a b : List Char)
    (h : s0 ∉ a) : splitFirst (s0 :: srest) (a ++ (s0 :: srest) ++ b) = some (a, b) := by
  induction a with
  | nil =>
    simp only [List.nil_append]
    unfold splitFirst
    show (if ((s0 :: srest).isPrefixOf (s0 :: (srest ++ b))) = true then
        some ([], (s0 :: (srest ++ b)).drop (s0 :: srest).length)
      else _) = _
    rw [if_pos]
    · simp only [Option.some.injEq, Prod.mk.injEq, true_and]
      show List.drop (s0 :: srest).length ((s0 :: srest) ++ b) = b
      exact List.drop_left _ _
    · show ((s0 :: srest).isPrefixOf ((s0 :: srest) ++ b)) = true
      exact List.isPrefixOf_iff_prefix.mpr (List.prefix_append _ _)
  | cons c arest ih =>
    have hc : s0 ≠ c := fun hc => h (hc ▸ List.mem_cons_self c arest)
    have harest : s0 ∉ arest := fun hmem => h (List.mem_cons_of_mem c hmem)
    have hpre : ((s0 :: srest).isPrefixOf
        (c :: (arest ++ (s0 :: srest) ++ b))) = false := by
      simp only [List.isPrefixOf, Bool.and_eq_false_iff, beq_eq_false_iff_ne]
      exact Or.inl hc
    show splitFirst (s0 :: srest) (c :: (arest ++ (s0 :: srest) ++ b)) = _
    unfold splitFirst
    rw [hpre]
    simp only [Bool.false_eq_true, if_false]
    rw [ih harest]

theorem stripChars_append_space (l : List Char) :
    stripChars (l ++ [' ']) = stripChars l := by
  unfold stripChars lstripChars rstripChars
  simp [List.dropWhile, pyWhitespace]

/-! ## Claim theorems -/

/-- C1: a background-scan result (full package refresh or outdated check)
delivered with a generation stamp different from the current generation is
discarded: the authoritative state — `all_packages`, `reverse_deps`,
`outdated_packages` (and the damaged cache) — is identical before and after
the stale delivery; moreover after a new scan request, a delivery stamped
with the previous generation is inert, so only the most recently requested
scan can ever be applied. -/
theorem scan_staleness (st : CoordState) (r : LoadResult)
    (m : List (String × OutdatedInfo)) (g : Nat)
    (h : g ≠ st.current_scan_id) :
    on_installed_loaded st r g = st ∧ on_outdated_checked st m g = st ∧
      on_installed_loaded (request_scan st) r st.current_scan_id =
        request_scan st ∧
      on_outdated_checked (request_scan st) m st.current_scan_id =
        request_scan st := by
  have hne : st.current_scan_id ≠ (request_scan st).current_scan_id := by
    simp only [request_scan]
    omega
  refine ⟨?_, ?_, ?_, ?_⟩
  · simp [on_installed_loaded, h]
  · simp [on_outdated_checked, h]
  · simp [on_installed_loaded, hne]
  · simp [on_outdated_checked, hne]

/-- C1 witness: at a concrete state with generation `1`, a delivery stamped
`0` leaves the state untouched. -/
theorem scan_staleness_witness :
    (0 ≠ (⟨[], [], [], ["d"], 1⟩ : CoordState).current_scan_id) ∧
      (on_installed_loaded ⟨[], [], [], ["d"], 1⟩
          ⟨[⟨"A", "1.0", 3, ["b"]⟩], [("b", ["A"])], []⟩ 0 =
        ⟨[], [], [], ["d"], 1⟩ ∧
      on_outdated_checked ⟨[], [], [], ["d"], 1⟩ [("A", ⟨"A", "2.0"⟩)] 0 =
        ⟨[], [], [], ["d"], 1⟩) :=
  ⟨by decide,
    (scan_staleness ⟨[], [], [], ["d"], 1⟩ ⟨[⟨"A", "1.0", 3, ["b"]⟩],
        [("b", ["A"])], []⟩ [("A", ⟨"A", "2.0"⟩)] 0 (by decide)).1,
    (scan_staleness ⟨[], [], [], ["d"], 1⟩ ⟨[⟨"A", "1.0", 3, ["b"]⟩],
        [("b", ["A"])], []⟩ [("A", ⟨"A", "2.0"⟩)] 0 (by decide)).2.1⟩

/-- C4 counterexample: after an environment-error scan result is processed at
the current generation, the state is NOT identical to the previous one — the
damaged-packages cache has been overwritten with the empty list (the
assignment at line 1663 is not guarded by `if packages:`). -/
theorem env_error_cex :
    (load_packages_task (.error "boom") "python").2.isSome = true ∧
      on_installed_loaded ⟨[⟨"A", "1.0", 3, []⟩], [], [], ["old-1.0.dist-info"], 5⟩
          (load_packages_task (.error "boom") "python").1 5 ≠
        ⟨[⟨"A", "1.0", 3, []⟩], [], [], ["old-1.0.dist-info"], 5⟩ := by
  refine ⟨by decide, ?_⟩
  decide

/-- C4 (amended): when locating the environment fails, the whole scan fails
with a single user-visible error and the empty result; processing that result
at the current generation retains `all_packages`, `reverse_deps` and the
outdated map untouched, but overwrites the damaged-packages cache with the
empty list (it is NOT retained). -/
theorem env_error_spec (st : CoordState) (e interp : String) (g : Nat)
    (h : g = st.current_scan_id) :
    (load_packages_task (.error e) interp).1 = ⟨[], [], []⟩ ∧
      (load_packages_task (.error e) interp).2 =
        some ("Failed to locate site-packages for:\n" ++ interp ++
          "\n\nError: " ++ e) ∧
      (on_installed_loaded st (load_packages_task (.error e) interp).1 g).all_packages =
        st.all_packages ∧
      (on_installed_loaded st (load_packages_task (.error e) interp).1 g).reverse_deps =
        st.reverse_deps ∧
      (on_installed_loaded st (load_packages_task (.error e) interp).1 g).outdated_packages =
        st.outdated_packages ∧
      (on_installed_loaded st (load_packages_task (.error e) interp).1 g).current_scan_id =
        st.current_scan_id ∧
      (on_installed_loaded st (load_packages_task (.error e) interp).1 g).damaged_packages_cache =
        [] := by
  subst h
  refine ⟨rfl, rfl, ?_, ?_, ?_, ?_, ?_⟩ <;>
    simp [load_packages_task, on_installed_loaded]

/-- C4 witness: the amended behaviour at a concrete state whose damaged cache
was non-empty before the failed scan. -/
theorem env_error_spec_witness :
    (5 = (⟨[⟨"A", "1.0", 3, []⟩], [("b", ["A"])], [("A", ⟨"A", "2.0"⟩)],
        ["old-1.0.dist-info"], 5⟩ : CoordState).current_scan_id) ∧
      (on_installed_loaded ⟨[⟨"A", "1.0", 3, []⟩], [("b", ["A"])],
          [("A", ⟨"A", "2.0"⟩)], ["old-1.0.dist-info"], 5⟩
          (load_packages_task (.error "boom") "python").1 5).all_packages =
        [⟨"A", "1.0", 3, []⟩] ∧
      (on_installed_loaded ⟨[⟨"A", "1.0", 3, []⟩], [("b", ["A"])],
          [("A", ⟨"A", "2.0"⟩)], ["old-1.0.dist-info"], 5⟩
          (load_packages_task (.error "boom") "python").1 5).damaged_packages_cache =
        [] :=
  ⟨rfl,
    (env_error_spec ⟨[⟨"A", "1.0", 3, []⟩], [("b", ["A"])],
      [("A", ⟨"A", "2.0"⟩)], ["old-1.0.dist-info"], 5⟩ "boom" "python" 5 rfl).2.2.1,
    (env_error_spec ⟨[⟨"A", "1.0", 3, []⟩], [("b", ["A"])],
      [("A", ⟨"A", "2.0"⟩)], ["old-1.0.dist-info"], 5⟩ "boom" "python" 5
      rfl).2.2.2.2.2.2⟩

/-- C2: for every package `A` in the scanned list and every raw requirement
string `s` it declares, with `b = req_name s` (the prefix of `s` before the
first delimiter in `<>=!~ (`, stripped): if `b` is non-empty and differs from
`A`'s name then `A`'s name is recorded in the index entry for `b`; the index
never has an entry under the empty name and never records a package under its
own name; the indexer is a total function, so malformed requirement strings
cannot make it raise. -/
theorem reverse_deps_roundtrip (ps : List Pkg) (A : Pkg) (s : String)
    (hA : A ∈ ps) (hs : s ∈ A.requires) :
    (req_name s ≠ "" → req_name s ≠ A.name →
      A.name ∈ rdLookup (reverse_deps ps) (req_name s)) ∧
      rdLookup (reverse_deps ps) "" = [] ∧
      A.name ∉ rdLookup (reverse_deps ps) A.name := by
  refine ⟨?_, ?_, ?_⟩
  · intro h1 h2
    exact self_mem_reverse_deps_aux ps A s hA hs h1 h2 []
  · by_contra hne
    rcases List.exists_mem_of_ne_nil _ hne with ⟨x, hx⟩
    exact (rdLookup_reverse_deps_sound ps "" x hx).1 rfl
  · intro hmem
    exact (rdLookup_reverse_deps_sound ps A.name A.name hmem).2 rfl

/-- C2 witness: the sample of the specification — `A` requires `"b>=1.0"`;
the entry for `"b"` contains `"A"`. -/
theorem reverse_deps_roundtrip_witness :
    ((⟨"A", "1.0", 0, ["b>=1.0"]⟩ : Pkg) ∈
        [(⟨"A", "1.0", 0, ["b>=1.0"]⟩ : Pkg), ⟨"b", "2.0", 0, []⟩]) ∧
      "b>=1.0" ∈ (⟨"A", "1.0", 0, ["b>=1.0"]⟩ : Pkg).requires ∧
      "A" ∈ rdLookup
        (reverse_deps [⟨"A", "1.0", 0, ["b>=1.0"]⟩, ⟨"b", "2.0", 0, []⟩]) "b" := by
  refine ⟨by decide, by decide, ?_⟩
  have h := (reverse_deps_roundtrip
    [⟨"A", "1.0", 0, ["b>=1.0"]⟩, ⟨"b", "2.0", 0, []⟩]
    ⟨"A", "1.0", 0, ["b>=1.0"]⟩ "b>=1.0" (by decide) (by decide)).1
    (by decide) (by decide)
  have hb : req_name "b>=1.0" = "b" := by decide
  rw [hb] at h
  exact h

/-- C3: the orphan set is exactly {installed names} minus {keys of the
reverse-dependency index} minus the essential allowlist; an allowlisted name
is never an orphan; and for an index built by the indexer, being a key is
exactly having at least one dependent, so no transitive closure enters the
definition. -/
theorem find_orphaned_spec (ps : List Pkg) (rd : List (String × List String))
    (n : String) :
    (n ∈ orphan_names ps rd ↔
      n ∈ ps.map Pkg.name ∧ n ∉ rd.map Prod.fst ∧ n ∉ essential_packages) ∧
      (n ∈ essential_packages → n ∉ orphan_names ps rd) ∧
      (n ∈ (reverse_deps ps).map Prod.fst ↔ rdLookup (reverse_deps ps) n ≠ []) := by
  have hmain : n ∈ orphan_names ps rd ↔
      n ∈ ps.map Pkg.name ∧ n ∉ rd.map Prod.fst ∧ n ∉ essential_packages := by
    unfold orphan_names
    rw [List.mem_filter]
    constructor
    · rintro ⟨hmem, hcond⟩
      simp only [Bool.and_eq_true, Bool.not_eq_true', List.any_eq_false,
        beq_iff_eq] at hcond
      have hess : n ∉ essential_packages := by simpa using hcond.2
      refine ⟨hmem, ?_, hess⟩
      intro hkey
      rcases List.mem_map.mp hkey with ⟨kv, hkv, hfst⟩
      exact absurd hfst (hcond.1 kv hkv)
    · rintro ⟨hmem, hkey, hess⟩
      refine ⟨hmem, ?_⟩
      simp only [Bool.and_eq_true, Bool.not_eq_true', List.any_eq_false,
        beq_iff_eq]
      refine ⟨?_, by simpa using hess⟩
      intro kv hkv hfst
      exact hkey (hfst ▸ List.mem_map_of_mem Prod.fst hkv)
  refine ⟨hmain, ?_, ?_⟩
  · intro hess hmem
    exact (hmain.mp hmem).2.2 hess
  · exact mem_keys_iff_rdLookup_ne_nil (reverse_deps ps)
      (reverse_deps_values_nonempty ps) n

/-- C3 witness: the specification sample — five packages with a known graph,
one essential package with zero dependents; the orphan set is exactly the
two packages with no dependents. -/
theorem find_orphaned_spec_witness :
    ("wheel" ∈ essential_packages →
      "wheel" ∉ orphan_names
        [⟨"A", "1", 0, ["b>=1.0"]⟩, ⟨"b", "1", 0, []⟩, ⟨"c", "1", 0, []⟩,
          ⟨"d", "1", 0, ["c"]⟩, ⟨"wheel", "1", 0, []⟩]
        (reverse_deps
          [⟨"A", "1", 0, ["b>=1.0"]⟩, ⟨"b", "1", 0, []⟩, ⟨"c", "1", 0, []⟩,
            ⟨"d", "1", 0, ["c"]⟩, ⟨"wheel", "1", 0, []⟩])) ∧
      orphan_names
        [⟨"A", "1", 0, ["b>=1.0"]⟩, ⟨"b", "1", 0, []⟩, ⟨"c", "1", 0, []⟩,
          ⟨"d", "1", 0, ["c"]⟩, ⟨"wheel", "1", 0, []⟩]
        (reverse_deps
          [⟨"A", "1", 0, ["b>=1.0"]⟩, ⟨"b", "1", 0, []⟩, ⟨"c", "1", 0, []⟩,
            ⟨"d", "1", 0, ["c"]⟩, ⟨"wheel", "1", 0, []⟩]) = ["A", "d"] :=
  ⟨(find_orphaned_spec
      [⟨"A", "1", 0, ["b>=1.0"]⟩, ⟨"b", "1", 0, []⟩, ⟨"c", "1", 0, []⟩,
        ⟨"d", "1", 0, ["c"]⟩, ⟨"wheel", "1", 0, []⟩]
      (reverse_deps
        [⟨"A", "1", 0, ["b>=1.0"]⟩, ⟨"b", "1", 0, []⟩, ⟨"c", "1", 0, []⟩,
          ⟨"d", "1", 0, ["c"]⟩, ⟨"wheel", "1", 0, []⟩]) "wheel").2.1,
    by decide⟩

/-- C5: an exception while checking one package (distribution lookup) or one
of its files is converted into its own problem record naming that package
only, instead of propagating: a failed lookup yields exactly its single
record, every record a package check emits names that package, a raising
file yields exactly its single "File check failed" record, and the records
of every file and every package still reach the deduplicated scan result. -/
theorem damage_check_isolation (o : ScanOptions) (dc : List String)
    (pip : Except String String) (dmap : List (String × String))
    (pkgs : List PkgCheck) (pc : PkgCheck) (hpc : pc ∈ pkgs) :
    (∀ e, pc.dist_lookup = .error e →
      check_package o dmap pc =
        [⟨"dist-fail-" ++ pc.pkg.name, pc.pkg.name,
          "Distribution lookup failed", e, "reinstallable"⟩]) ∧
      (∀ p ∈ check_package o dmap pc, p.name = pc.pkg.name) ∧
      (∀ f e, f.locate_raises = some e →
        check_file o pc.pkg.name pc.missing_meta f =
          [⟨"filecheck-fail-" ++ pc.pkg.name ++ "-" ++ f.fname, pc.pkg.name,
            "File check failed",
            "Error checking file " ++ f.fname ++ ": " ++ e, "reinstallable"⟩]) ∧
      (∀ fs f, pc.dist_lookup = .ok () →
        (o.check_hashes || o.check_metadata_files) = true → pc.files = .ok fs →
        f ∈ fs → ∀ p ∈ check_file o pc.pkg.name pc.missing_meta f,
          p ∈ check_package o dmap pc) ∧
      (∀ p ∈ check_package o dmap pc,
        p.id ∈ (scan_for_damaged_packages_task o dc pip dmap pkgs).map
          Problem.id) := by
  refine ⟨?_, ?_, ?_, ?_, ?_⟩
  · intro e he
    simp [check_package, he]
  · intro p hp
    exact (check_package_fields o dmap pc p hp).1
  · intro f e he
    simp [check_file, he]
  · intro fs f hok hopts hfs hf p hp
    have hfs_ne : fs ≠ [] := List.ne_nil_of_mem hf
    simp only [check_package, hok, hopts, hfs, if_pos, if_neg hfs_ne]
    exact List.mem_append_right _ (List.mem_flatMap.mpr ⟨f, hf, hp⟩)
  · intro p hp
    unfold scan_for_damaged_packages_task
    rw [mem_ids_dedupById]
    exact List.mem_map_of_mem Problem.id
      (mem_collect_of_mem_check_package o dc pip dmap pkgs pc hpc p hp)

/-- C5 witness: a failed lookup for one package is its own single record, a
hash-mismatch record of the other package still reaches the scan result. -/
theorem damage_check_isolation_witness :
    (sample_bad ∈ [sample_bad, sample_good]) ∧
      sample_bad.dist_lookup = .error "metadata boom" ∧
      check_package sample_options [] sample_bad =
        [⟨"dist-fail-" ++ sample_bad.pkg.name, sample_bad.pkg.name,
          "Distribution lookup failed", "metadata boom", "reinstallable"⟩] ∧
      check_file sample_options sample_good.pkg.name sample_good.missing_meta
          sample_file_raises =
        [⟨"filecheck-fail-" ++ sample_good.pkg.name ++ "-" ++
            sample_file_raises.fname, sample_good.pkg.name,
          "File check failed",
          "Error checking file " ++ sample_file_raises.fname ++ ": " ++
            "io error", "reinstallable"⟩] ∧
      "hash-good-b.py" ∈
        (scan_for_damaged_packages_task sample_options [] (.ok "") []
          [sample_bad, sample_good]).map Problem.id := by
  refine ⟨by decide, by decide, ?_, ?_, ?_⟩
  · exact (damage_check_isolation sample_options [] (.ok "") []
      [sample_bad, sample_good] sample_bad (by decide)).1 "metadata boom"
      (by decide)
  · exact (damage_check_isolation sample_options [] (.ok "") []
      [sample_bad, sample_good] sample_good (by decide)).2.2.1
      sample_file_raises "io error" (by decide)
  · exact (damage_check_isolation sample_options [] (.ok "") []
      [sample_bad, sample_good] sample_good (by decide)).2.2.2.2
      ⟨"hash-good-b.py", "good", "File hash mismatch", "File: b.py",
        "reinstallable"⟩ (by decide)

/-- C9: the damage scan merges its results by problem id: within one run
every id occurs at most once, re-deduplicating the result is the identity,
and merging the raw problem lists of two identical runs yields the same id
set as a single run. -/
theorem damage_scan_idempotent (o : ScanOptions) (dc : List String)
    (pip : Except String String) (dmap : List (String × String))
    (pkgs : List PkgCheck) :
    ((scan_for_damaged_packages_task o dc pip dmap pkgs).map Problem.id).Nodup ∧
      dedupById (scan_for_damaged_packages_task o dc pip dmap pkgs) =
        scan_for_damaged_packages_task o dc pip dmap pkgs ∧
      (∀ x, x ∈ (dedupById (collect_problems o dc pip dmap pkgs ++
          collect_problems o dc pip dmap pkgs)).map Problem.id ↔
        x ∈ (scan_for_damaged_packages_task o dc pip dmap pkgs).map
          Problem.id) := by
  refine ⟨dedupById_nodup _, dedupById_of_nodup _ (dedupById_nodup _), ?_⟩
  intro x
  rw [mem_ids_dedupById, scan_for_damaged_packages_task, mem_ids_dedupById]
  simp [List.mem_append]

/-- C10: every problem record the damage scan returns is typed
`reinstallable`, and consequently the reinstall action is enabled for any
non-empty selection of scan results. -/
theorem scan_problems_reinstallable (o : ScanOptions) (dc : List String)
    (pip : Except String String) (dmap : List (String × String))
    (pkgs : List PkgCheck) :
    (∀ p ∈ scan_for_damaged_packages_task o dc pip dmap pkgs,
      p.type = "reinstallable") ∧
      (∀ selection : List Problem, selection ≠ [] →
        (∀ p ∈ selection, p ∈ scan_for_damaged_packages_task o dc pip dmap pkgs) →
        reinstall_button_enabled selection = true) := by
  have htype : ∀ p ∈ scan_for_damaged_packages_task o dc pip dmap pkgs,
      p.type = "reinstallable" := fun p hp =>
    collect_problems_type o dc pip dmap pkgs p (mem_dedupById _ p hp)
  refine ⟨htype, ?_⟩
  intro sel hne hsub
  unfold reinstall_button_enabled
  rw [if_neg hne, List.all_eq_true]
  intro p hp
  have := htype p (hsub p hp)
  simp [this]

/-- C10 witness: a concrete scan result (one unparseable-metadata record) is
entirely reinstallable and enables the reinstall action when selected. -/
theorem scan_problems_reinstallable_witness :
    (([⟨"x.dist-info", "x", "Unparseable metadata",
        "Could not parse metadata from: x.dist-info", "reinstallable"⟩] :
        List Problem) ≠ []) ∧
      reinstall_button_enabled
        [⟨"x.dist-info", "x", "Unparseable metadata",
          "Could not parse metadata from: x.dist-info", "reinstallable"⟩] =
        true :=
  ⟨by decide,
    (scan_problems_reinstallable ⟨false, false, false, false⟩ ["x.dist-info"]
      (.ok "") [] []).2
      [⟨"x.dist-info", "x", "Unparseable metadata",
        "Could not parse metadata from: x.dist-info", "reinstallable"⟩]
      (by decide) (by decide)⟩

/-- C6 counterexample: two distinct version strings that are invalid under
the PEP 440 grammar (both lack the mandatory release digits) receive the
SAME sort key — the fixed key of `parse_version("0.0.0")` — so the
comparator does not treat an unparseable string as an opaquely ordered token
of its own. -/
theorem version_fallback_cex :
    parseVersion "zzz" = none ∧ parseVersion "not-a-version" = none ∧
      ("zzz" : String) ≠ "not-a-version" ∧
      get_version_sort_key true "zzz" =
        get_version_sort_key true "not-a-version" ∧
      get_version_sort_key true "zzz" = .ver [0, 0, 0] :=
  ⟨by decide, by decide, by decide, by decide, by decide⟩

/-- C6 (amended): when the base part of a version string cannot be parsed,
the comparator with `packaging` available falls back to the fixed key
`parse_version("0.0.0")` (all unparseable strings share one key); only when
`packaging` is unavailable is the string itself the (opaque) key.  Sort-key
computation is a total function either way, so sorting never raises. -/
theorem version_fallback_spec (s : String)
    (h : parseVersion (pyStrip (pySplitHead arrowSep s)) = none) :
    get_version_sort_key true s = .ver [0, 0, 0] ∧
      get_version_sort_key false s = .str (pyStrip (pySplitHead arrowSep s)) := by
  constructor
  · simp only [get_version_sort_key, h]
    rfl
  · simp only [get_version_sort_key]
    rfl

/-- C6 witness: the amended fallback at a concrete unparseable string. -/
theorem version_fallback_spec_witness :
    parseVersion (pyStrip (pySplitHead arrowSep "weird-version")) = none ∧
      get_version_sort_key true "weird-version" = .ver [0, 0, 0] ∧
      get_version_sort_key false "weird-version" =
        .str (pyStrip (pySplitHead arrowSep "weird-version")) :=
  ⟨by decide, (version_fallback_spec "weird-version" (by decide)).1,
    (version_fallback_spec "weird-version" (by decide)).2⟩

/-- C7: under the comparator's sort key, `"1.10.0"` sorts strictly after
`"1.9.0"` (numeric-aware, not lexicographic), and a display string built by
the program as `current → latest` is keyed by its left-hand side alone —
stated generally for any version not containing the arrow's first character,
and instantiated at `"1.9.0 → 2.0.0"`. -/
theorem version_sort_numeric_and_arrow :
    versionKeyLt (get_version_sort_key true "1.9.0")
        (get_version_sort_key true "1.10.0") = true ∧
      versionKeyLt (get_version_sort_key true "1.10.0")
        (get_version_sort_key true "1.9.0") = false ∧
      get_version_sort_key true "1.9.0" = .ver [1, 9, 0] ∧
      get_version_sort_key true "1.10.0" = .ver [1, 10, 0] ∧
      (∀ (pa : Bool) (v latest : String), Char.ofNat 0xE2 ∉ v.data →
        get_version_sort_key pa (versionDisplay v latest) =
          get_version_sort_key pa v) ∧
      get_version_sort_key true (versionDisplay "1.9.0" "2.0.0") =
        get_version_sort_key true "1.9.0" := by
  refine ⟨by decide, by decide, by decide, by decide, ?_, by decide⟩
  intro pa v latest hno
  have harrow : arrowSep.data =
      Char.ofNat 0xE2 :: [Char.ofNat 0x2020, Char.ofNat 0x2019] := rfl
  have hdata : (versionDisplay v latest).data =
      (v.data ++ [' ']) ++ arrowSep.data ++ ([' '] ++ latest.data) := by
    simp [versionDisplay]
  have hnotin : Char.ofNat 0xE2 ∉ v.data ++ [' '] := by
    intro hc
    rcases List.mem_append.mp hc with hc' | hc'
    · exact hno hc'
    · simp only [List.mem_singleton] at hc'
      exact absurd hc' (by decide)
  have h1 : splitFirst arrowSep.data (versionDisplay v latest).data =
      some (v.data ++ [' '], [' '] ++ latest.data) := by
    rw [hdata, harrow]
    exact splitFirst_marker _ _ _ _ hnotin
  have h2 : pySplitHead arrowSep (versionDisplay v latest) = ⟨v.data ++ [' ']⟩ := by
    unfold pySplitHead
    rw [h1]
  have h3 : pySplitHead arrowSep v = v := by
    unfold pySplitHead
    rw [harrow, splitFirst_eq_none _ _ _ hno]
  have hbase : pyStrip (pySplitHead arrowSep (versionDisplay v latest)) =
      pyStrip (pySplitHead arrowSep v) := by
    rw [h2, h3]
    exact congrArg (fun l => (⟨l⟩ : String)) (stripChars_append_space v.data)
  simp only [get_version_sort_key]
  rw [hbase]

/-- C7 witness: the arrow-extraction conjunct at a concrete display string. -/
theorem version_sort_numeric_and_arrow_witness :
    (Char.ofNat 0xE2 ∉ ("7.7" : String).data) ∧
      get_version_sort_key false (versionDisplay "7.7" "8.0") =
        get_version_sort_key false "7.7" :=
  ⟨by decide,
    version_sort_numeric_and_arrow.2.2.2.2.1 false "7.7" "8.0" (by decide)⟩

/-- C8: the outdated lookup first tries an exact key; failing that it returns
the first entry whose normalized key (lowercase, runs of `-`/`.` collapsed to
`_`) matches the normalized package name; it returns `None` exactly when
neither an exact nor a normalized match exists. -/
theorem outdated_matching (od : List (String × OutdatedInfo)) (n : String) :
    ((∃ kv ∈ od, kv.1 = n) →
      ∃ kv ∈ od, kv.1 = n ∧ is_package_outdated od n = some kv.2) ∧
      ((∀ kv ∈ od, kv.1 ≠ n) →
        ∀ kv0 ∈ od, normalize_name kv0.1 = normalize_name n →
        ∃ kv ∈ od, normalize_name kv.1 = normalize_name n ∧
          is_package_outdated od n = some kv.2) ∧
      (is_package_outdated od n = none ↔
        ∀ kv ∈ od, kv.1 ≠ n ∧ normalize_name kv.1 ≠ normalize_name n) := by
  cases h1 : od.find? (fun kv => kv.1 == n) with
  | some kv =>
    have hkey : kv.1 = n := by simpa using List.find?_some h1
    have hmem : kv ∈ od := List.mem_of_find?_eq_some h1
    have hres : is_package_outdated od n = some kv.2 := by
      simp [is_package_outdated, h1]
    refine ⟨fun _ => ⟨kv, hmem, hkey, hres⟩,
      fun hno => absurd hkey (hno kv hmem), ?_, ?_⟩
    · intro hc
      rw [hres] at hc
      cases hc
    · intro hall
      exact absurd hkey (hall kv hmem).1
  | none =>
    have hno : ∀ kv ∈ od, kv.1 ≠ n := by
      intro kv hkv
      simpa using List.find?_eq_none.mp h1 kv hkv
    cases h2 : od.find? (fun kv => normalize_name kv.1 == normalize_name n) with
    | some kv =>
      have hnorm : normalize_name kv.1 = normalize_name n := by
        simpa using List.find?_some h2
      have hmem : kv ∈ od := List.mem_of_find?_eq_some h2
      have hres : is_package_outdated od n = some kv.2 := by
        simp [is_package_outdated, h1, h2]
      refine ⟨?_, fun _ _ _ _ => ⟨kv, hmem, hnorm, hres⟩, ?_, ?_⟩
      · rintro ⟨kv', hkv', hkey'⟩
        exact absurd hkey' (hno kv' hkv')
      · intro hc
        rw [hres] at hc
        cases hc
      · intro hall
        exact absurd hnorm (hall kv hmem).2
    | none =>
      have hnonorm : ∀ kv ∈ od, normalize_name kv.1 ≠ normalize_name n := by
        intro kv hkv
        simpa using List.find?_eq_none.mp h2 kv hkv
      have hres : is_package_outdated od n = none := by
        simp [is_package_outdated, h1, h2]
      refine ⟨?_, ?_, ?_⟩
      · rintro ⟨kv', hkv', hkey'⟩
        exact absurd hkey' (hno kv' hkv')
      · intro _ kv0 hkv0 hn0
        exact absurd hn0 (hnonorm kv0 hkv0)
      · exact ⟨fun _ kv hkv => ⟨hno kv hkv, hnonorm kv hkv⟩, fun _ => hres⟩

/-- C8 witness: the specification sample — installed `"My-Package"` matches
the outdated entry keyed `"my_package"` through normalization. -/
theorem outdated_matching_witness :
    (∀ kv ∈ [("my_package", (⟨"my_package", "2.0"⟩ : OutdatedInfo))],
        kv.1 ≠ "My-Package") ∧
      normalize_name "My-Package" = "my_package" ∧
      is_package_outdated [("my_package", ⟨"my_package", "2.0"⟩)] "My-Package" =
        some ⟨"my_package", "2.0"⟩ := by
  refine ⟨by decide, by decide, ?_⟩
  obtain ⟨kv, hkv, -, hres⟩ := (outdated_matching
    [("my_package", ⟨"my_package", "2.0"⟩)] "My-Package").2.1 (by decide)
    ("my_package", ⟨"my_package", "2.0"⟩) (by decide) (by decide)
  simp only [List.mem_singleton] at hkv
  subst hkv
  exact hres

end PyLibs
